import Mathlib

/-!
Verification of the Tari peer RPC server core.

This file gives a shallow embedding of the request-handling and session
code of `src/comms/core/src/protocol/rpc/server/mod.rs` and of
`src/comms/core/src/bounded_executor.rs`, and proves properties of the
embedded functions.

Modelling conventions:
* machine integers (`u32`, `u64`, `usize`) are natural numbers; byte strings
  are lists of naturals;
* durations are naturals counted in milliseconds (`Duration::from_secs s`
  becomes `1000 * s`);
* asynchronous effects are made explicit: the outcome of the service call,
  the result of each non-blocking poll of the inbound half of the stream and
  the expiry of each `timeout` wrapper are inputs to the embedded functions;
* outbound writes (`framed.send`) are modelled as succeeding; transport
  write failures abort every path alike and are orthogonal to the claims;
* a reachable `.unwrap()` panic in the source is modelled as a distinguished
  `panics` result;
* modules of the repository that are referenced by `server/mod.rs` but are
  not part of the source sample (`message.rs`, `status.rs`, `body.rs`,
  `chunking.rs`) are modelled from the spec; each such definition carries a
  doc comment starting with "Modelled from the spec:".
-/

/-- Bytes on the wire; byte strings are lists of these. -/
abbrev Byte := Nat

/-- Durations, counted in milliseconds. -/
abbrev Duration := Nat

/-- Rust `Duration::from_secs`. -/
def Duration.from_secs (s : Nat) : Duration := 1000 * s

/-- Rust `u8::try_from` applied to a `u32` value: succeeds exactly when the
value fits in a byte.  The source calls `.unwrap()` on the result, so `none`
here corresponds to a panic of the session task. -/
def u8_try_from (n : Nat) : Option Nat :=
  if n < 256 then some n else none

/-- Decoded form of the protobuf `proto::rpc::RpcRequest`
(`request_id: u32, method: u32, deadline: u64, flags: u32, payload: bytes`).
Protobuf decoding itself (prost) is external; the embedding works on decoded
messages. -/
structure RpcRequestP where
  request_id : Nat
  method : Nat
  deadline : Nat
  flags : Nat
  payload : List Byte
  deriving DecidableEq

/-- Modelled from the spec: `RpcMessageFlags` (message.rs is not in the
source sample).  Bit assignment: `FIN = 0x01`, `ACK = 0x02`, all other bits
reserved. -/
structure RpcMessageFlags where
  fin : Bool
  ack : Bool
  deriving DecidableEq

/-- Modelled from the spec: bitflags `from_bits_truncate` keeps only the
defined bits of a byte and drops the reserved ones. -/
def RpcMessageFlags.from_bits_truncate (n : Nat) : RpcMessageFlags :=
  ⟨n.testBit 0, n.testBit 1⟩

/-- Modelled from the spec: `bits` returns the byte encoding of the flag set. -/
def RpcMessageFlags.bits (f : RpcMessageFlags) : Nat :=
  (if f.fin then 1 else 0) + (if f.ack then 2 else 0)

/-- The `FIN` flag constant. -/
def RpcMessageFlags.FIN : RpcMessageFlags := ⟨true, false⟩

/-- The `ACK` flag constant. -/
def RpcMessageFlags.ACK : RpcMessageFlags := ⟨false, true⟩

/-- Modelled from the spec: `RpcStatus` (status.rs is not in the source
sample).  A status is a numeric code plus human-readable details;
`code = 0` iff ok. -/
structure RpcStatus where
  code : Nat
  details : List Byte
  deriving DecidableEq

/-- Modelled from the spec: the OK status, code 0. -/
def RpcStatus.ok : RpcStatus := ⟨0, []⟩

/-- Modelled from the spec: the (nonzero) numeric code of `bad_request`. -/
def RpcStatus.badRequestCode : Nat := 1

/-- Modelled from the spec: `RpcStatus::bad_request` with given details. -/
def RpcStatus.bad_request (details : List Byte) : RpcStatus :=
  ⟨RpcStatus.badRequestCode, details⟩

/-- Outbound `RpcResponse` message
(`request_id: u32, status: u32, flags, payload: bytes`); on the wire the
flag set is carried as its byte encoding `RpcMessageFlags.bits`. -/
structure RpcResponseP where
  request_id : Nat
  status : Nat
  flags : RpcMessageFlags
  payload : List Byte
  deriving DecidableEq

/-- Modelled from the spec: one element of the lazy response body stream
(body.rs is not in the source sample).  Each element is either a
`BodyBytes` chunk carrying an `is_finished` marker, or an `RpcStatus`
error that ends the stream. -/
inductive BodyItem
  | bytes (payload : List Byte) (is_finished : Bool)
  | failed (status : RpcStatus)
  deriving DecidableEq

/-- Whether a body item terminates the stream: a finished chunk or an error. -/
def bodyItemTerminal : BodyItem → Bool
  | .bytes _ f => f
  | .failed _ => true

/-- Modelled from the spec: a response body is a finite lazy sequence whose
`is_finished` marker sits on the last chunk; so every element other than the
last is non-terminal.  The last element itself is unconstrained here (the
theorems only need the weaker form). -/
def wellFormedBody : List BodyItem → Bool
  | [] => true
  | [_] => true
  | b :: c :: rest => !bodyItemTerminal b && wellFormedBody (c :: rest)

/-- Embedding of `into_response` (server/mod.rs lines 753-779): an Ok body
chunk becomes an OK response whose FIN flag mirrors `is_finished`; an error
becomes a FIN-flagged response with the error status and details. -/
def into_response (request_id : Nat) (result : BodyItem) : RpcResponseP :=
  match result with
  | .bytes payload is_finished =>
      { request_id := request_id, status := 0,
        flags := ⟨is_finished, false⟩, payload := payload }
  | .failed err =>
      { request_id := request_id, status := err.code,
        flags := RpcMessageFlags.FIN, payload := err.details }

/-- Splitting a payload into chunks of at most `cs` bytes.  The first
argument is fuel bounding the recursion; `chunkPayload` supplies enough. -/
def chunkPayloadFuel : Nat → Nat → List Byte → List (List Byte)
  | 0, _, p => [p]
  | fuel + 1, cs, p =>
      if p.length ≤ cs then [p]
      else p.take cs :: chunkPayloadFuel fuel cs (p.drop cs)

/-- Modelled from the spec: split a payload at the maximum chunk size. -/
def chunkPayload (cs : Nat) (p : List Byte) : List (List Byte) :=
  if cs = 0 then [p] else chunkPayloadFuel p.length cs p

/-- Modelled from the spec: turn the chunks of one response into wire
messages.  All chunks share the original `request_id` and status; every
chunk except the last has its FIN bit cleared, the last keeps the original
flags. -/
def chunkRespAux (msg : RpcResponseP) : List (List Byte) → List RpcResponseP
  | [] => []
  | [c] => [{ msg with payload := c }]
  | c :: c2 :: rest =>
      { msg with payload := c, flags := { msg.flags with fin := false } } ::
        chunkRespAux msg (c2 :: rest)

/-- Modelled from the spec: `ChunkedResponseIter` (chunking.rs is not in the
source sample) as a pure function from one response to the list of wire
messages it is split into. -/
def ChunkedResponseIter (cs : Nat) (msg : RpcResponseP) : List RpcResponseP :=
  chunkRespAux msg (chunkPayload cs msg.payload)

/-- The flattened outbound stream built in `process_body` (lines 631-642):
each body item is turned into a response by `into_response` and then split
by `ChunkedResponseIter`. -/
def bodyFrames (cs rid : Nat) (body : List BodyItem) : List RpcResponseP :=
  (body.map (into_response rid)).flatMap (ChunkedResponseIter cs)

/-- The errors of `RpcServerError` relevant to the session worker. -/
inductive RpcServerError
  | clientInterruptedStream
  | unexpectedIncomingMessage
  | unexpectedIncomingMessageMalformed
  | streamClosedByRemote
  | ioError
  deriving DecidableEq

/-- What one non-blocking poll of the inbound half of the framed stream can
yield inside `check_interruptions`: a frame that decodes to an `RpcRequest`
(`some`) or fails to decode (`none`), an `io::ErrorKind::WouldBlock` error,
another io error, end of stream, or `Poll::Pending`. -/
inductive InboundPoll
  | frame (decoded : Option RpcRequestP)
  | errWouldBlock
  | errIo
  | closed
  | pending
  deriving DecidableEq

/-- Result of one `check_interruptions` call: continue streaming, stop with
an `RpcServerError`, or panic (the `u8::try_from(flags).unwrap()` on line
712 fails for flags above 255). -/
inductive CheckResult
  | ok
  | stop (e : RpcServerError)
  | panics
  deriving DecidableEq

/-- Embedding of `ActivePeerRpcService::check_interruptions`
(server/mod.rs lines 702-729). -/
def ActivePeerRpcService.check_interruptions (p : InboundPoll) : CheckResult :=
  match p with
  | .frame none => .stop .unexpectedIncomingMessageMalformed
  | .frame (some msg) =>
      match u8_try_from msg.flags with
      | none => .panics
      | some b =>
          if (RpcMessageFlags.from_bits_truncate b).fin then
            .stop .clientInterruptedStream
          else
            .stop .unexpectedIncomingMessage
  | .errWouldBlock => .ok
  | .errIo => .stop .ioError
  | .closed => .stop .streamClosedByRemote
  | .pending => .ok

/-- Environment of one iteration of the `process_body` loop: what the
interruption check observes on the inbound half, and whether the
`timeout(deadline, next_item)` wrapper expires before the next outbound
message is available. -/
structure StepEnv where
  poll : InboundPoll
  timedOut : Bool
  deriving DecidableEq

/-- Environment used once the supplied schedule runs out: nothing pending
inbound, no timeout. -/
def defaultStep : StepEnv := ⟨.pending, false⟩

/-- How an embedded fallible computation ends: `Ok(())`, `Err(e)`, or a
panic of the task. -/
inductive ExecResult
  | ok
  | err (e : RpcServerError)
  | panics
  deriving DecidableEq

/-- Observable outcome of `process_body`: the outbound frames sent, how many
times the deadline-exceeded error counter was bumped, and how the function
returned. -/
structure PbOutput where
  sent : List RpcResponseP
  deadlineExceededIncs : Nat
  result : ExecResult
  deriving DecidableEq

/-- Embedding of the loop of `ActivePeerRpcService::process_body`
(server/mod.rs lines 644-698) over the flattened outbound frame list.
Each iteration first runs `check_interruptions` (a
`ClientInterruptedStream` breaks the loop with Ok, any other error is
returned, a panic propagates), then awaits the next outbound frame under
`timeout(deadline, _)`: expiry bumps the `ReadStreamExceededDeadline`
counter and breaks, exhaustion of the stream breaks, otherwise the frame is
sent and the loop continues. -/
def processBodyLoop : List StepEnv → List RpcResponseP → List RpcResponseP → PbOutput
  | env, [], acc =>
      match ActivePeerRpcService.check_interruptions (env.headD defaultStep).poll with
      | .panics => ⟨acc, 0, .panics⟩
      | .stop e =>
          if e = .clientInterruptedStream then ⟨acc, 0, .ok⟩ else ⟨acc, 0, .err e⟩
      | .ok => ⟨acc, 0, .ok⟩
  | env, f :: rest, acc =>
      match ActivePeerRpcService.check_interruptions (env.headD defaultStep).poll with
      | .panics => ⟨acc, 0, .panics⟩
      | .stop e =>
          if e = .clientInterruptedStream then ⟨acc, 0, .ok⟩ else ⟨acc, 0, .err e⟩
      | .ok =>
          if (env.headD defaultStep).timedOut then ⟨acc, 1, .ok⟩
          else processBodyLoop env.tail rest (acc ++ [f])

/-- Embedding of `ActivePeerRpcService::process_body` (server/mod.rs lines
622-700): stream the body as flattened chunked responses, driven by the
per-iteration environment. -/
def ActivePeerRpcService.process_body (cs rid : Nat) (body : List BodyItem)
    (env : List StepEnv) : PbOutput :=
  processBodyLoop env (bodyFrames cs rid body) []

/-- Outcome of the service call made for a dispatched request: the
`timeout(deadline, service.call(req))` expired, the service returned an
error status, or it returned a response body. -/
inductive ServiceOutcome
  | timeout
  | failed (status : RpcStatus)
  | succeeded (body : List BodyItem)
  deriving DecidableEq

/-- The body returned by the service (when there is one) is well formed in
the sense of `wellFormedBody`. -/
def serviceWellFormed : ServiceOutcome → Bool
  | .succeeded body => wellFormedBody body
  | _ => true

/-- Embedding of the `RpcServerBuilder` configuration
(server/mod.rs lines 165-210). -/
structure RpcServerBuilder where
  maximum_simultaneous_sessions : Option Nat
  minimum_client_deadline : Duration
  handshake_timeout : Duration
  deriving DecidableEq

/-- The `Default` impl of `RpcServerBuilder` (lines 202-210): at most 1000
sessions, 1 s minimum client deadline, 15 s handshake timeout. -/
def RpcServerBuilder.default : RpcServerBuilder :=
  ⟨some 1000, Duration.from_secs 1, Duration.from_secs 15⟩

/-- Placeholder for the bytes of the formatted "Invalid deadline"
detail string built on lines 520-523; the claims never inspect it. -/
def invalidDeadlineDetails : List Byte := []

/-- Observable outcome of `ActivePeerRpcService::handle_request`: frames
sent, whether the service was called, metric bumps, and how the handler
returned.  The per-chunk status-error counter bumped lazily inside the
`process_body` stream is not tracked; `statusErrorIncs` counts only the
bumps `handle_request` performs itself (lines 530 and 610). -/
structure HandleOutput where
  sent : List RpcResponseP
  serviceCalled : Bool
  statusErrorIncs : Nat
  deadlineExceededIncs : Nat
  result : ExecResult
  deriving DecidableEq

/-- Embedding of `ActivePeerRpcService::handle_request`
(server/mod.rs lines 506-616), for an already-decoded request:
1. if `deadline < minimum_client_deadline`, send a single FIN bad-request
   response carrying the request id, bump the status-error counter, Ok;
2. decode the flags with `u8::try_from(flags).unwrap()` (panics above 255)
   and `from_bits_truncate`;
3. a FIN request returns Ok without a response;
4. an ACK request is answered by a single ACK-flagged OK response with
   empty payload, Ok;
5. otherwise the service is called under `timeout(deadline, _)`: expiry
   bumps the deadline-exceeded counter and returns Ok with nothing sent;
   a service error is answered by a single FIN response with the error
   status; a service Ok streams the body through `process_body`. -/
def ActivePeerRpcService.handle_request (cs : Nat) (config : RpcServerBuilder)
    (req : RpcRequestP) (svc : ServiceOutcome) (env : List StepEnv) : HandleOutput :=
  if Duration.from_secs req.deadline < config.minimum_client_deadline then
    let status := RpcStatus.bad_request invalidDeadlineDetails
    { sent := [{ request_id := req.request_id, status := status.code,
                 flags := RpcMessageFlags.FIN, payload := status.details }],
      serviceCalled := false, statusErrorIncs := 1, deadlineExceededIncs := 0,
      result := .ok }
  else
    match u8_try_from req.flags with
    | none =>
        { sent := [], serviceCalled := false, statusErrorIncs := 0,
          deadlineExceededIncs := 0, result := .panics }
    | some b =>
        if (RpcMessageFlags.from_bits_truncate b).fin then
          { sent := [], serviceCalled := false, statusErrorIncs := 0,
            deadlineExceededIncs := 0, result := .ok }
        else if (RpcMessageFlags.from_bits_truncate b).ack then
          { sent := [{ request_id := req.request_id, status := RpcStatus.ok.code,
                       flags := RpcMessageFlags.ACK, payload := [] }],
            serviceCalled := false, statusErrorIncs := 0,
            deadlineExceededIncs := 0, result := .ok }
        else
          match svc with
          | .timeout =>
              { sent := [], serviceCalled := true, statusErrorIncs := 0,
                deadlineExceededIncs := 1, result := .ok }
          | .failed err =>
              { sent := [{ request_id := req.request_id, status := err.code,
                           flags := RpcMessageFlags.FIN, payload := err.details }],
                serviceCalled := true, statusErrorIncs := 1,
                deadlineExceededIncs := 0, result := .ok }
          | .succeeded body =>
              let pb := ActivePeerRpcService.process_body cs req.request_id body env
              { sent := pb.sent, serviceCalled := true, statusErrorIncs := 0,
                deadlineExceededIncs := pb.deadlineExceededIncs,
                result := pb.result }

/-- Modelled from the spec: `HandshakeRejectReason` (error.rs is not in the
source sample); a closed enumeration of reject reasons. -/
inductive HandshakeRejectReason
  | protocolNotSupported
  | unsupportedVersion
  | noSessionsAvailable
  | unknownReason
  deriving DecidableEq

/-- How `try_initiate_service` can return. -/
inductive InitResult
  | ok
  | maximumSessionsReached
  | makeServiceFailed
  | handshakeFailed
  deriving DecidableEq

/-- Environment of one `try_initiate_service` run: whether the bounded
executor has a free permit, whether the service factory succeeds, whether
the server-side handshake succeeds, and whether the final `try_spawn`
succeeds (it can fail if permits were taken concurrently). -/
structure InitiateEnv where
  can_spawn : Bool
  make_service_ok : Bool
  handshake_ok : Bool
  try_spawn_ok : Bool
  deriving DecidableEq

/-- Observable outcome of `try_initiate_service`: the reject reason sent via
the handshake (if any), whether the service factory was asked for a
service, whether the server-side version handshake was performed, whether a
session task was spawned, and the returned result. -/
structure InitiateOutput where
  rejectSent : Option HandshakeRejectReason
  serviceRequested : Bool
  handshakePerformed : Bool
  sessionSpawned : Bool
  result : InitResult
  deriving DecidableEq

/-- Embedding of `PeerRpcServer::try_initiate_service`
(server/mod.rs lines 334-398): if the executor cannot spawn, reject with
NoSessionsAvailable and return MaximumSessionsReached; otherwise ask the
factory for a service (on failure reject with ProtocolNotSupported and
return the factory error); then perform the server handshake (propagating
failure); then `try_spawn` the session (failure maps to
MaximumSessionsReached).  Outbound reject writes are modelled as
succeeding. -/
def PeerRpcServer.try_initiate_service (env : InitiateEnv) : InitiateOutput :=
  if !env.can_spawn then
    { rejectSent := some .noSessionsAvailable, serviceRequested := false,
      handshakePerformed := false, sessionSpawned := false,
      result := .maximumSessionsReached }
  else if !env.make_service_ok then
    { rejectSent := some .protocolNotSupported, serviceRequested := true,
      handshakePerformed := false, sessionSpawned := false,
      result := .makeServiceFailed }
  else if !env.handshake_ok then
    { rejectSent := none, serviceRequested := true, handshakePerformed := true,
      sessionSpawned := false, result := .handshakeFailed }
  else if !env.try_spawn_ok then
    { rejectSent := none, serviceRequested := true, handshakePerformed := true,
      sessionSpawned := false, result := .maximumSessionsReached }
  else
    { rejectSent := none, serviceRequested := true, handshakePerformed := true,
      sessionSpawned := true, result := .ok }

/-- Embedding of `BoundedExecutor::max_theoretical_tasks`
(bounded_executor.rs lines 66-71): `usize::MAX >> 4` on a 64-bit target. -/
def BoundedExecutor.max_theoretical_tasks : Nat := (2 ^ 64 - 1) >>> 4

/-- Embedding of the `GetNumActiveSessions` arm of
`PeerRpcServer::handle_request` (server/mod.rs lines 286-298): reply with
`max_sessions.saturating_sub(num_available)` where `max_sessions` is the
configured maximum or `max_theoretical_tasks` when unlimited.  Natural
subtraction is exactly `saturating_sub`. -/
def PeerRpcServer.handle_request (maximum_simultaneous_sessions : Option Nat)
    (num_available : Nat) : Nat :=
  (maximum_simultaneous_sessions.getD BoundedExecutor.max_theoretical_tasks)
    - num_available

/-- A control-plane request (handle.rs is not in the source sample; the
only variant used by `serve` is `GetNumActiveSessions`). -/
inductive ControlRequest
  | getNumActiveSessions
  deriving DecidableEq

/-- An inbound protocol notification event; its handling never fails
(`handle_protocol_notification` logs all session-initiation errors and
returns Ok), so the event content is irrelevant to the supervisor loop. -/
inductive NotifEvent
  | newInboundSubstream
  deriving DecidableEq

/-- Observable outcome of the supervisor loop: the control requests it
handled, in order, and how `serve` returned. -/
structure ServeOutput where
  handledControl : List ControlRequest
  result : ExecResult
  deriving DecidableEq

/-- Embedding of the `tokio::select!` loop of `PeerRpcServer::serve`
(server/mod.rs lines 256-284).  `notifs` is the queue of notifications the
source will still deliver (its exhaustion is the source being closed) and
`ctrl` the queue of pending control requests.  When both branches are ready
the unbiased select is modelled by the `choices` schedule: `true` polls the
notification branch first, `false` the control branch.  A `None` from the
notification source breaks the loop; the control branch is only ready while
a request is pending. -/
def PeerRpcServer.serveLoopAux (choices : List Bool) (notifs : List NotifEvent)
    (ctrl : List ControlRequest) (handled : List ControlRequest) : ServeOutput :=
  match notifs, ctrl with
  | [], [] => ⟨handled, .ok⟩
  | [], r :: rs =>
      if choices.headD true then ⟨handled, .ok⟩
      else PeerRpcServer.serveLoopAux choices.tail [] rs (handled ++ [r])
  | _ :: ns, [] => PeerRpcServer.serveLoopAux choices.tail ns [] handled
  | n :: ns, r :: rs =>
      if choices.headD true then
        PeerRpcServer.serveLoopAux choices.tail ns (r :: rs) handled
      else
        PeerRpcServer.serveLoopAux choices.tail (n :: ns) rs (handled ++ [r])
  termination_by notifs.length + ctrl.length
  decreasing_by all_goals simp_arith

/-- The supervisor loop started with nothing handled yet. -/
def PeerRpcServer.serveLoop (choices : List Bool) (notifs : List NotifEvent)
    (ctrl : List ControlRequest) : ServeOutput :=
  PeerRpcServer.serveLoopAux choices notifs ctrl []

/-- All frames sent except possibly the final one have the FIN bit clear. -/
def FinLastOnly (l : List RpcResponseP) : Prop :=
  ∀ i (h : i < l.length), l[i].flags.fin = true → i + 1 = l.length

/-- No frame in the list has the FIN bit set. -/
def noFinB (l : List RpcResponseP) : Bool :=
  l.all fun f => !f.flags.fin

/-- The FIN discipline of the frames a single `handle_request` run sends:
every frame bears the request id of the inbound request, at most one frame
has FIN set, and a FIN-flagged frame is the last frame sent. -/
def SentWellFormedFor (cs : Nat) (config : RpcServerBuilder) (req : RpcRequestP)
    (svc : ServiceOutcome) (env : List StepEnv) : Prop :=
  (∀ f ∈ (ActivePeerRpcService.handle_request cs config req svc env).sent,
      f.request_id = req.request_id) ∧
  (∀ i j (hi : i < (ActivePeerRpcService.handle_request cs config req svc env).sent.length)
      (hj : j < (ActivePeerRpcService.handle_request cs config req svc env).sent.length),
      (ActivePeerRpcService.handle_request cs config req svc env).sent[i].flags.fin = true →
      (ActivePeerRpcService.handle_request cs config req svc env).sent[j].flags.fin = true →
      i = j) ∧
  (∀ i (hi : i < (ActivePeerRpcService.handle_request cs config req svc env).sent.length),
      (ActivePeerRpcService.handle_request cs config req svc env).sent[i].flags.fin = true →
      i + 1 = (ActivePeerRpcService.handle_request cs config req svc env).sent.length)

/-- The empty frame list trivially satisfies the FIN discipline. -/
theorem finLastOnly_nil : FinLastOnly [] := by
  intro i h
  simp at h

/-- A single frame trivially satisfies the FIN discipline. -/
theorem finLastOnly_single (x : RpcResponseP) : FinLastOnly [x] := by
  intro i h _
  simp only [List.length_singleton] at h ⊢
  omega

/-- A list without FIN satisfies the FIN discipline vacuously. -/
theorem finLastOnly_of_noFin {l : List RpcResponseP} (h : noFinB l = true) :
    FinLastOnly l := by
  intro i hi hfin
  have := List.all_eq_true.mp h _ (List.getElem_mem hi)
  simp [hfin] at this

/-- Prepending a FIN-free frame preserves the FIN discipline. -/
theorem finLastOnly_cons {x : RpcResponseP} {t : List RpcResponseP}
    (hx : x.flags.fin = false) (ht : FinLastOnly t) : FinLastOnly (x :: t) := by
  intro i hi hfin
  cases i with
  | zero => rw [List.getElem_cons_zero] at hfin; rw [hx] at hfin; cases hfin
  | succ j =>
      rw [List.getElem_cons_succ] at hfin
      have := ht j (by simp at hi; omega) hfin
      simp
      omega

/-- A FIN-free block followed by a FIN-disciplined block is FIN-disciplined. -/
theorem finLastOnly_append {xs ys : List RpcResponseP} (hx : noFinB xs = true)
    (hy : FinLastOnly ys) : FinLastOnly (xs ++ ys) := by
  intro i hi hfin
  rw [List.length_append] at hi
  by_cases hlt : i < xs.length
  · rw [List.getElem_append_left hlt] at hfin
    have := List.all_eq_true.mp hx _ (List.getElem_mem hlt)
    simp [hfin] at this
  · have hge : xs.length ≤ i := by omega
    rw [List.getElem_append_right hge] at hfin
    have := hy (i - xs.length) (by omega) hfin
    simp
    omega

/-- Taking a prefix preserves the FIN discipline. -/
theorem finLastOnly_take {l : List RpcResponseP} (h : FinLastOnly l) (n : Nat) :
    FinLastOnly (l.take n) := by
  intro i hi hfin
  have hlen : (l.take n).length = min n l.length := List.length_take n l
  have hil : i < l.length := by omega
  rw [List.getElem_take] at hfin
  have := h i hil hfin
  omega

/-- In a FIN-disciplined list any two FIN-flagged positions coincide. -/
theorem finLastOnly_unique {l : List RpcResponseP} (h : FinLastOnly l) :
    ∀ i j (hi : i < l.length) (hj : j < l.length),
      l[i].flags.fin = true → l[j].flags.fin = true → i = j := by
  intro i j hi hj h1 h2
  have := h i hi h1
  have := h j hj h2
  omega

/-- If the original message has FIN clear, none of its chunks carries FIN. -/
theorem chunkRespAux_noFin (msg : RpcResponseP) (h : msg.flags.fin = false) :
    ∀ chunks, noFinB (chunkRespAux msg chunks) = true := by
  intro chunks
  induction chunks with
  | nil => simp [chunkRespAux, noFinB]
  | cons c rest ih =>
      cases rest with
      | nil => simp [chunkRespAux, noFinB, h]
      | cons c2 r2 =>
          simp only [chunkRespAux, noFinB, List.all_cons, Bool.and_eq_true] at ih ⊢
          exact ⟨rfl, ih⟩

/-- The chunks of a single message satisfy the FIN discipline: only the last
chunk can carry FIN. -/
theorem chunkRespAux_finLastOnly (msg : RpcResponseP) :
    ∀ chunks, FinLastOnly (chunkRespAux msg chunks) := by
  intro chunks
  induction chunks with
  | nil => simp only [chunkRespAux]; exact finLastOnly_nil
  | cons c rest ih =>
      cases rest with
      | nil => exact finLastOnly_single _
      | cons c2 r2 => exact finLastOnly_cons rfl ih

/-- Every chunk keeps the request id of the original message. -/
theorem chunkRespAux_request_id (msg : RpcResponseP) :
    ∀ chunks, ∀ f ∈ chunkRespAux msg chunks, f.request_id = msg.request_id := by
  intro chunks
  induction chunks with
  | nil => simp [chunkRespAux]
  | cons c rest ih =>
      cases rest with
      | nil => simp [chunkRespAux]
      | cons c2 r2 =>
          intro f hf
          simp only [chunkRespAux, List.mem_cons] at hf
          rcases hf with hf | hf
          · rw [hf]
          · exact ih f hf

/-- `into_response` stamps the given request id on the response. -/
theorem into_response_request_id (rid : Nat) (b : BodyItem) :
    (into_response rid b).request_id = rid := by
  cases b <;> rfl

/-- A non-terminal body item yields a response with FIN clear. -/
theorem into_response_fin (rid : Nat) (b : BodyItem)
    (h : bodyItemTerminal b = false) : (into_response rid b).flags.fin = false := by
  cases b with
  | bytes p f => simpa [bodyItemTerminal] using h
  | failed err => simp [bodyItemTerminal] at h

/-- The flattened outbound frames of a well-formed body satisfy the FIN
discipline. -/
theorem bodyFrames_finLastOnly (cs rid : Nat) :
    ∀ body, wellFormedBody body = true → FinLastOnly (bodyFrames cs rid body) := by
  intro body
  induction body with
  | nil =>
      intro _
      simp only [bodyFrames, List.map_nil, List.flatMap_nil]
      exact finLastOnly_nil
  | cons b rest ih =>
      intro hwf
      cases rest with
      | nil =>
          simp only [bodyFrames, List.map_cons, List.map_nil, List.flatMap_cons,
            List.flatMap_nil, List.append_nil]
          exact chunkRespAux_finLastOnly _ _
      | cons c r2 =>
          simp only [wellFormedBody, Bool.and_eq_true, Bool.not_eq_true'] at hwf
          have hframes : bodyFrames cs rid (b :: c :: r2) =
              ChunkedResponseIter cs (into_response rid b) ++ bodyFrames cs rid (c :: r2) := by
            simp [bodyFrames]
          rw [hframes]
          refine finLastOnly_append ?_ (ih hwf.2)
          exact chunkRespAux_noFin _ (into_response_fin rid b hwf.1) _

/-- Every flattened outbound frame bears the request id of the request. -/
theorem bodyFrames_request_id (cs rid : Nat) (body : List BodyItem) :
    ∀ f ∈ bodyFrames cs rid body, f.request_id = rid := by
  intro f hf
  simp only [bodyFrames, List.mem_flatMap, List.mem_map] at hf
  obtain ⟨resp, ⟨b, _, hb⟩, hmem⟩ := hf
  have := chunkRespAux_request_id resp _ f hmem
  rw [this, ← hb, into_response_request_id]

/-- The frames sent by the `process_body` loop form a prefix of the frame
stream: every exit path stops sending but never reorders, duplicates, or
invents frames. -/
theorem processBodyLoop_sent_take :
    ∀ frames env acc, ∃ n, (processBodyLoop env frames acc).sent = acc ++ frames.take n := by
  intro frames
  induction frames with
  | nil =>
      intro env acc
      refine ⟨0, ?_⟩
      simp only [processBodyLoop, List.take_nil, List.append_nil]
      cases ActivePeerRpcService.check_interruptions (env.headD defaultStep).poll with
      | ok => rfl
      | panics => rfl
      | stop e =>
          by_cases he : e = RpcServerError.clientInterruptedStream <;> simp [he]
  | cons f rest ih =>
      intro env acc
      simp only [processBodyLoop]
      cases ActivePeerRpcService.check_interruptions (env.headD defaultStep).poll with
      | panics => exact ⟨0, by simp⟩
      | stop e =>
          by_cases he : e = RpcServerError.clientInterruptedStream <;> simp [he]
      | ok =>
          by_cases ht : (env.headD defaultStep).timedOut
          · simp only [ht, if_true]
            exact ⟨0, by simp⟩
          · simp only [ht, Bool.false_eq_true, if_false]
            obtain ⟨m, hm⟩ := ih env.tail (acc ++ [f])
            refine ⟨m + 1, ?_⟩
            rw [hm, List.take_succ_cons, List.append_assoc]
            rfl

/-- FIN discipline and request-id stamping of everything `process_body`
sends, for a well-formed body. -/
theorem process_body_sent_props (cs rid : Nat) (body : List BodyItem)
    (env : List StepEnv) (h : wellFormedBody body = true) :
    FinLastOnly (ActivePeerRpcService.process_body cs rid body env).sent ∧
    ∀ f ∈ (ActivePeerRpcService.process_body cs rid body env).sent, f.request_id = rid := by
  obtain ⟨n, hn⟩ := processBodyLoop_sent_take (bodyFrames cs rid body) env []
  have hsent : (ActivePeerRpcService.process_body cs rid body env).sent =
      (bodyFrames cs rid body).take n := by
    simpa [ActivePeerRpcService.process_body] using hn
  rw [hsent]
  constructor
  · exact finLastOnly_take (bodyFrames_finLastOnly cs rid body h) n
  · intro f hf
    exact bodyFrames_request_id cs rid body f (List.mem_of_mem_take hf)

/-- FIN discipline and request-id stamping of everything a single
`handle_request` run sends, across every branch of the handler. -/
theorem handle_request_sent_props (cs : Nat) (config : RpcServerBuilder)
    (req : RpcRequestP) (svc : ServiceOutcome) (env : List StepEnv)
    (hwf : serviceWellFormed svc = true) :
    (∀ f ∈ (ActivePeerRpcService.handle_request cs config req svc env).sent,
        f.request_id = req.request_id) ∧
    FinLastOnly (ActivePeerRpcService.handle_request cs config req svc env).sent := by
  unfold ActivePeerRpcService.handle_request
  by_cases hd : Duration.from_secs req.deadline < config.minimum_client_deadline
  · simp only [hd, if_true]
    refine ⟨?_, finLastOnly_single _⟩
    intro f hf
    simp only [List.mem_singleton] at hf
    rw [hf]
  · simp only [hd, if_false]
    cases hu : u8_try_from req.flags with
    | none => exact ⟨by simp, finLastOnly_nil⟩
    | some b =>
        by_cases hfin : (RpcMessageFlags.from_bits_truncate b).fin
        · simp only [hfin, if_true]
          exact ⟨by simp, finLastOnly_nil⟩
        · simp only [hfin, Bool.false_eq_true, if_false]
          by_cases hack : (RpcMessageFlags.from_bits_truncate b).ack
          · simp only [hack, if_true]
            refine ⟨?_, finLastOnly_single _⟩
            intro f hf
            simp only [List.mem_singleton] at hf
            rw [hf]
          · simp only [hack, Bool.false_eq_true, if_false]
            cases svc with
            | timeout => exact ⟨by simp, finLastOnly_nil⟩
            | failed err =>
                refine ⟨?_, finLastOnly_single _⟩
                intro f hf
                simp only [List.mem_singleton] at hf
                rw [hf]
            | succeeded body =>
                simp only [serviceWellFormed] at hwf
                have h2 := process_body_sent_props cs req.request_id body env hwf
                exact ⟨h2.2, h2.1⟩

/-- The supervisor loop always returns Ok once the notification source is
exhausted, whatever the select schedule and pending work are. -/
theorem serveLoopAux_result :
    ∀ (m : Nat) (choices : List Bool) (notifs : List NotifEvent)
      (ctrl : List ControlRequest) (handled : List ControlRequest),
      notifs.length + ctrl.length ≤ m →
      (PeerRpcServer.serveLoopAux choices notifs ctrl handled).result = .ok := by
  intro m
  induction m with
  | zero =>
      intro choices notifs ctrl handled h
      cases notifs with
      | cons n ns => simp at h
      | nil =>
          cases ctrl with
          | cons r rs => simp at h
          | nil => simp [PeerRpcServer.serveLoopAux]
  | succ m ih =>
      intro choices notifs ctrl handled h
      cases notifs with
      | nil =>
          cases ctrl with
          | nil => simp [PeerRpcServer.serveLoopAux]
          | cons r rs =>
              rw [PeerRpcServer.serveLoopAux]
              by_cases hc : choices.headD true = true
              · rw [if_pos hc]
              · rw [if_neg hc]
                exact ih _ _ _ _ (by simp at h ⊢; omega)
      | cons n ns =>
          cases ctrl with
          | nil =>
              rw [PeerRpcServer.serveLoopAux]
              exact ih _ _ _ _ (by simp at h ⊢; omega)
          | cons r rs =>
              rw [PeerRpcServer.serveLoopAux]
              by_cases hc : choices.headD true = true
              · rw [if_pos hc]
                exact ih _ _ _ _ (by simp at h ⊢; omega)
              · rw [if_neg hc]
                exact ih _ _ _ _ (by simp at h ⊢; omega)

/-- The control requests the supervisor loop handles extend the accumulator
by a prefix of the pending queue, in order. -/
theorem serveLoopAux_handled :
    ∀ (m : Nat) (choices : List Bool) (notifs : List NotifEvent)
      (ctrl : List ControlRequest) (handled : List ControlRequest),
      notifs.length + ctrl.length ≤ m →
      ∃ k, (PeerRpcServer.serveLoopAux choices notifs ctrl handled).handledControl
            = handled ++ ctrl.take k := by
  intro m
  induction m with
  | zero =>
      intro choices notifs ctrl handled h
      cases notifs with
      | cons n ns => simp at h
      | nil =>
          cases ctrl with
          | cons r rs => simp at h
          | nil => exact ⟨0, by simp [PeerRpcServer.serveLoopAux]⟩
  | succ m ih =>
      intro choices notifs ctrl handled h
      cases notifs with
      | nil =>
          cases ctrl with
          | nil => exact ⟨0, by simp [PeerRpcServer.serveLoopAux]⟩
          | cons r rs =>
              rw [PeerRpcServer.serveLoopAux]
              by_cases hc : choices.headD true = true
              · rw [if_pos hc]
                exact ⟨0, by simp⟩
              · rw [if_neg hc]
                obtain ⟨k, hk⟩ := ih choices.tail [] rs (handled ++ [r])
                  (by simp at h ⊢; omega)
                refine ⟨k + 1, ?_⟩
                rw [hk, List.take_succ_cons, List.append_assoc]
                rfl
      | cons n ns =>
          cases ctrl with
          | nil =>
              rw [PeerRpcServer.serveLoopAux]
              exact ih _ _ _ _ (by simp at h ⊢; omega)
          | cons r rs =>
              rw [PeerRpcServer.serveLoopAux]
              by_cases hc : choices.headD true = true
              · rw [if_pos hc]
                exact ih _ _ _ _ (by simp at h ⊢; omega)
              · rw [if_neg hc]
                obtain ⟨k, hk⟩ := ih choices.tail (n :: ns) rs (handled ++ [r])
                  (by simp at h ⊢; omega)
                refine ⟨k + 1, ?_⟩
                rw [hk, List.take_succ_cons, List.append_assoc]
                rfl

/-- C1 counterexample: with the default config, request id 7 (deadline 5 s,
no flags) and a two-chunk body whose per-message deadline expires before the
second chunk is read, the server sends one frame bearing id 7 and no
FIN-flagged frame at all, so it is not the case that exactly one outbound
frame bearing the id has FIN set. -/
theorem C1_counterexample :
    ActivePeerRpcService.handle_request 10 RpcServerBuilder.default
        { request_id := 7, method := 1, deadline := 5, flags := 0, payload := [] }
        (ServiceOutcome.succeeded [BodyItem.bytes [1] false, BodyItem.bytes [2] true])
        [{ poll := InboundPoll.pending, timedOut := false },
         { poll := InboundPoll.pending, timedOut := true }] =
      { sent := [{ request_id := 7, status := 0,
                   flags := { fin := false, ack := false }, payload := [1] }],
        serviceCalled := true, statusErrorIncs := 0, deadlineExceededIncs := 1,
        result := ExecResult.ok } := by decide

/-- C1 (amended): for every request and every exit path of the handler
(including per-message deadline expiry and client interruption during
response streaming), all outbound frames bear the request id, at most one
of them has the FIN flag set, and a FIN-flagged frame is the last frame
sent; the hypothesis is that the service body, when there is one, is well
formed (is_finished only on the last item, per the Body contract). -/
theorem C1_fin_at_most_once_and_last (cs : Nat) (config : RpcServerBuilder)
    (req : RpcRequestP) (svc : ServiceOutcome) (env : List StepEnv)
    (hwf : serviceWellFormed svc = true) :
    SentWellFormedFor cs config req svc env := by
  obtain ⟨hid, hfin⟩ := handle_request_sent_props cs config req svc env hwf
  exact ⟨hid, finLastOnly_unique hfin, hfin⟩

/-- C1 witness: the FIN discipline at a concrete single-message request. -/
theorem C1_fin_at_most_once_and_last_witness :
    serviceWellFormed (ServiceOutcome.succeeded [BodyItem.bytes [187] true]) = true ∧
    SentWellFormedFor 10 RpcServerBuilder.default
      { request_id := 7, method := 1, deadline := 5, flags := 0, payload := [170] }
      (ServiceOutcome.succeeded [BodyItem.bytes [187] true]) [] :=
  ⟨by decide,
   C1_fin_at_most_once_and_last 10 RpcServerBuilder.default
     { request_id := 7, method := 1, deadline := 5, flags := 0, payload := [170] }
     (ServiceOutcome.succeeded [BodyItem.bytes [187] true]) [] (by decide)⟩

/-- C2: for every inbound request whose deadline is below
`minimum_client_deadline`, the handler sends exactly one bad-request
response with FIN set and the same request id, makes no service call, bumps
the status-error counter once, and returns Ok so the session keeps
reading. -/
theorem C2_bad_request_short_deadline (cs : Nat) (config : RpcServerBuilder)
    (req : RpcRequestP) (svc : ServiceOutcome) (env : List StepEnv)
    (h : Duration.from_secs req.deadline < config.minimum_client_deadline) :
    ActivePeerRpcService.handle_request cs config req svc env =
      { sent := [{ request_id := req.request_id, status := RpcStatus.badRequestCode,
                   flags := RpcMessageFlags.FIN, payload := invalidDeadlineDetails }],
        serviceCalled := false, statusErrorIncs := 1, deadlineExceededIncs := 0,
        result := ExecResult.ok } := by
  unfold ActivePeerRpcService.handle_request
  rw [if_pos h]
  rfl

/-- C2 witness: deadline 0 s against the default 1 s minimum. -/
theorem C2_bad_request_short_deadline_witness :
    Duration.from_secs 0 < RpcServerBuilder.default.minimum_client_deadline ∧
    ActivePeerRpcService.handle_request 10 RpcServerBuilder.default
        { request_id := 3, method := 0, deadline := 0, flags := 0, payload := [] }
        ServiceOutcome.timeout [] =
      { sent := [{ request_id := 3, status := RpcStatus.badRequestCode,
                   flags := RpcMessageFlags.FIN, payload := invalidDeadlineDetails }],
        serviceCalled := false, statusErrorIncs := 1, deadlineExceededIncs := 0,
        result := ExecResult.ok } :=
  ⟨by decide,
   C2_bad_request_short_deadline 10 RpcServerBuilder.default
     { request_id := 3, method := 0, deadline := 0, flags := 0, payload := [] }
     ServiceOutcome.timeout [] (by decide)⟩

/-- C3 counterexample: a request whose flags contain the ACK bit (flags = 3,
i.e. FIN and ACK both set, valid deadline) is answered with no response at
all, refuting the claim that every request containing the ACK bit gets
exactly one ACK-flagged OK response. -/
theorem C3_counterexample :
    Nat.testBit 3 1 = true ∧
    (ActivePeerRpcService.handle_request 10 RpcServerBuilder.default
        { request_id := 9, method := 0, deadline := 5, flags := 3, payload := [] }
        ServiceOutcome.timeout []).sent = [] := by decide

/-- C3 (amended): for every inbound request whose flags value fits in a
byte, has the ACK bit set and the FIN bit clear, and whose deadline is at
least `minimum_client_deadline`, the handler sends exactly one ACK-flagged
OK response with the same request id and empty payload, makes no service
call, and returns Ok. -/
theorem C3_ack_response (cs : Nat) (config : RpcServerBuilder) (req : RpcRequestP)
    (svc : ServiceOutcome) (env : List StepEnv)
    (hb : req.flags < 256)
    (hfin : Nat.testBit req.flags 0 = false)
    (hack : Nat.testBit req.flags 1 = true)
    (hd : ¬ Duration.from_secs req.deadline < config.minimum_client_deadline) :
    ActivePeerRpcService.handle_request cs config req svc env =
      { sent := [{ request_id := req.request_id, status := RpcStatus.ok.code,
                   flags := RpcMessageFlags.ACK, payload := [] }],
        serviceCalled := false, statusErrorIncs := 0, deadlineExceededIncs := 0,
        result := ExecResult.ok } := by
  unfold ActivePeerRpcService.handle_request
  rw [if_neg hd]
  have hu : u8_try_from req.flags = some req.flags := by
    unfold u8_try_from
    rw [if_pos hb]
  rw [hu]
  simp [RpcMessageFlags.from_bits_truncate, hfin, hack, RpcMessageFlags.ACK]

/-- C3 witness: the ACK fast path at flags = 2, deadline 5 s. -/
theorem C3_ack_response_witness :
    (2 : Nat) < 256 ∧ Nat.testBit 2 0 = false ∧ Nat.testBit 2 1 = true ∧
    ¬ Duration.from_secs 5 < RpcServerBuilder.default.minimum_client_deadline ∧
    ActivePeerRpcService.handle_request 10 RpcServerBuilder.default
        { request_id := 9, method := 0, deadline := 5, flags := 2, payload := [] }
        ServiceOutcome.timeout [] =
      { sent := [{ request_id := 9, status := RpcStatus.ok.code,
                   flags := RpcMessageFlags.ACK, payload := [] }],
        serviceCalled := false, statusErrorIncs := 0, deadlineExceededIncs := 0,
        result := ExecResult.ok } :=
  ⟨by decide, by decide, by decide, by decide,
   C3_ack_response 10 RpcServerBuilder.default
     { request_id := 9, method := 0, deadline := 5, flags := 2, payload := [] }
     ServiceOutcome.timeout [] (by decide) (by decide) (by decide) (by decide)⟩

/-- C4: evaluating the handler at a request with flags = 256 (a reserved
bit, value outside u8) and a valid deadline: the `u8::try_from(flags)`
`.unwrap()` on line 535 panics, no frame is sent, no service call is made —
the code is not total in the flags value, contradicting the claim that
unknown bits are ignored and decoding never panics. -/
theorem C4_flags_overflow_panics :
    ActivePeerRpcService.handle_request 10 RpcServerBuilder.default
        { request_id := 1, method := 0, deadline := 5, flags := 256, payload := [] }
        ServiceOutcome.timeout [] =
      { sent := [], serviceCalled := false, statusErrorIncs := 0,
        deadlineExceededIncs := 0, result := ExecResult.panics } := by decide

/-- C5: for every dispatched request (valid deadline, no FIN or ACK bits,
byte-sized flags) whose service call exceeds the deadline, the handler
sends nothing, bumps the deadline-exceeded counter once, and returns Ok so
the session keeps reading. -/
theorem C5_service_timeout_silent (cs : Nat) (config : RpcServerBuilder)
    (req : RpcRequestP) (env : List StepEnv)
    (hb : req.flags < 256)
    (hfin : Nat.testBit req.flags 0 = false)
    (hack : Nat.testBit req.flags 1 = false)
    (hd : ¬ Duration.from_secs req.deadline < config.minimum_client_deadline) :
    ActivePeerRpcService.handle_request cs config req ServiceOutcome.timeout env =
      { sent := [], serviceCalled := true, statusErrorIncs := 0,
        deadlineExceededIncs := 1, result := ExecResult.ok } := by
  unfold ActivePeerRpcService.handle_request
  rw [if_neg hd]
  have hu : u8_try_from req.flags = some req.flags := by
    unfold u8_try_from
    rw [if_pos hb]
  rw [hu]
  simp [RpcMessageFlags.from_bits_truncate, hfin, hack]

/-- C5 witness: scenario 6 shape — deadline 1 s (the minimum), service
slower than the deadline. -/
theorem C5_service_timeout_silent_witness :
    (0 : Nat) < 256 ∧ Nat.testBit 0 0 = false ∧ Nat.testBit 0 1 = false ∧
    ¬ Duration.from_secs 1 < RpcServerBuilder.default.minimum_client_deadline ∧
    ActivePeerRpcService.handle_request 10 RpcServerBuilder.default
        { request_id := 11, method := 2, deadline := 1, flags := 0, payload := [] }
        ServiceOutcome.timeout [] =
      { sent := [], serviceCalled := true, statusErrorIncs := 0,
        deadlineExceededIncs := 1, result := ExecResult.ok } :=
  ⟨by decide, by decide, by decide, by decide,
   C5_service_timeout_silent 10 RpcServerBuilder.default
     { request_id := 11, method := 2, deadline := 1, flags := 0, payload := [] }
     [] (by decide) (by decide) (by decide) (by decide)⟩

/-- C6: whenever the bounded executor has no free permit, the substream is
rejected through the handshake with NoSessionsAvailable and
`try_initiate_service` returns MaximumSessionsReached, without asking the
service factory for a service and without performing the version
handshake accept. -/
theorem C6_reject_when_sessions_full (env : InitiateEnv)
    (h : env.can_spawn = false) :
    PeerRpcServer.try_initiate_service env =
      { rejectSent := some HandshakeRejectReason.noSessionsAvailable,
        serviceRequested := false, handshakePerformed := false,
        sessionSpawned := false, result := InitResult.maximumSessionsReached } := by
  unfold PeerRpcServer.try_initiate_service
  rw [h]
  rfl

/-- C6 witness: a full executor with an otherwise healthy environment. -/
theorem C6_reject_when_sessions_full_witness :
    (InitiateEnv.mk false true true true).can_spawn = false ∧
    PeerRpcServer.try_initiate_service (InitiateEnv.mk false true true true) =
      { rejectSent := some HandshakeRejectReason.noSessionsAvailable,
        serviceRequested := false, handshakePerformed := false,
        sessionSpawned := false, result := InitResult.maximumSessionsReached } :=
  ⟨rfl, C6_reject_when_sessions_full (InitiateEnv.mk false true true true) rfl⟩

/-- C7: evaluating the interruption check at a decodable inbound frame
whose flags are 257 (FIN plus a reserved bit): the
`u8::try_from(flags).unwrap()` on line 712 panics instead of stopping the
stream cleanly, and `process_body` propagates the panic — contradicting the
claimed classification of inbound frames during streaming. -/
theorem C7_interrupt_reserved_bits_panic :
    ActivePeerRpcService.check_interruptions
        (InboundPoll.frame
          (some { request_id := 1, method := 0, deadline := 5, flags := 257, payload := [] }))
      = CheckResult.panics ∧
    ActivePeerRpcService.process_body 10 7 [BodyItem.bytes [1] true]
        [{ poll := InboundPoll.frame
              (some { request_id := 1, method := 0, deadline := 5, flags := 257, payload := [] }),
           timedOut := false }] =
      { sent := [], deadlineExceededIncs := 0, result := ExecResult.panics } := by
  decide

/-- C8: every GetNumActiveSessions control request is answered with
max_sessions minus the available permits, where max_sessions is the
configured maximum or the executor's theoretical maximum
`usize::MAX >> 4 = 2^60 - 1` when the configured maximum is None. -/
theorem C8_num_active_sessions (maxSessions : Option Nat) (avail : Nat) :
    PeerRpcServer.handle_request maxSessions avail =
      (match maxSessions with
       | some m => m
       | none => (2 ^ 64 - 1) >>> 4) - avail ∧
    BoundedExecutor.max_theoretical_tasks = 2 ^ 60 - 1 := by
  constructor
  · cases maxSessions <;> rfl
  · decide

/-- C9 counterexample: with the notification source closed and one control
request pending, a schedule that polls the notification branch first makes
the supervisor loop exit Ok with the pending control request unhandled, so
the loop does not drain pending control requests before exiting. -/
theorem C9_counterexample :
    PeerRpcServer.serveLoop [true] [] [ControlRequest.getNumActiveSessions] =
      { handledControl := [], result := ExecResult.ok } := by
  rw [PeerRpcServer.serveLoop, PeerRpcServer.serveLoopAux]
  rfl

/-- C9 (amended): once the protocol-notification source is closed the
supervisor loop exits successfully under every select schedule, and the
control requests it handled before exiting form a (possibly empty, possibly
strict) prefix of those pending — draining is not guaranteed. -/
theorem C9_exit_ok_without_drain_guarantee (choices : List Bool)
    (notifs : List NotifEvent) (ctrl : List ControlRequest) :
    (PeerRpcServer.serveLoop choices notifs ctrl).result = ExecResult.ok ∧
    ∃ k, (PeerRpcServer.serveLoop choices notifs ctrl).handledControl = ctrl.take k := by
  constructor
  · exact serveLoopAux_result (notifs.length + ctrl.length) choices notifs ctrl [] le_rfl
  · obtain ⟨k, hk⟩ :=
      serveLoopAux_handled (notifs.length + ctrl.length) choices notifs ctrl [] le_rfl
    exact ⟨k, by simpa using hk⟩

/-- C10 counterexample: a request with both FIN and ACK set (flags = 3) but
a deadline below the minimum is answered with a bad-request response, so it
is not the case that every FIN-and-ACK request gets no response at all. -/
theorem C10_counterexample :
    Nat.testBit 3 0 = true ∧ Nat.testBit 3 1 = true ∧
    (ActivePeerRpcService.handle_request 10 RpcServerBuilder.default
        { request_id := 4, method := 0, deadline := 0, flags := 3, payload := [] }
        ServiceOutcome.timeout []).sent.length = 1 := by decide

/-- C10 (amended): for every inbound request whose flags fit in a byte and
contain both the FIN and the ACK bit, and whose deadline is at least
`minimum_client_deadline`, the FIN interpretation takes precedence: no
response is sent (in particular no ACK reply), no service call is made, and
the handler returns Ok. -/
theorem C10_fin_precedence (cs : Nat) (config : RpcServerBuilder) (req : RpcRequestP)
    (svc : ServiceOutcome) (env : List StepEnv)
    (hb : req.flags < 256)
    (hfin : Nat.testBit req.flags 0 = true)
    (_hack : Nat.testBit req.flags 1 = true)
    (hd : ¬ Duration.from_secs req.deadline < config.minimum_client_deadline) :
    ActivePeerRpcService.handle_request cs config req svc env =
      { sent := [], serviceCalled := false, statusErrorIncs := 0,
        deadlineExceededIncs := 0, result := ExecResult.ok } := by
  unfold ActivePeerRpcService.handle_request
  rw [if_neg hd]
  have hu : u8_try_from req.flags = some req.flags := by
    unfold u8_try_from
    rw [if_pos hb]
  rw [hu]
  simp [RpcMessageFlags.from_bits_truncate, hfin]

/-- C10 witness: flags = 3 with a valid deadline yields silence. -/
theorem C10_fin_precedence_witness :
    (3 : Nat) < 256 ∧ Nat.testBit 3 0 = true ∧ Nat.testBit 3 1 = true ∧
    ¬ Duration.from_secs 5 < RpcServerBuilder.default.minimum_client_deadline ∧
    ActivePeerRpcService.handle_request 10 RpcServerBuilder.default
        { request_id := 12, method := 0, deadline := 5, flags := 3, payload := [] }
        ServiceOutcome.timeout [] =
      { sent := [], serviceCalled := false, statusErrorIncs := 0,
        deadlineExceededIncs := 0, result := ExecResult.ok } :=
  ⟨by decide, by decide, by decide, by decide,
   C10_fin_precedence 10 RpcServerBuilder.default
     { request_id := 12, method := 0, deadline := 5, flags := 3, payload := [] }
     ServiceOutcome.timeout [] (by decide) (by decide) (by decide) (by decide)⟩
